import Mathlib

/-!
# gong.c: doorbell relay driven by VTO ring datagrams

A shallow embedding of `src/gong.c` and the properties of its dispatcher
(`main`), its actuation task (`vto_is_calling`), its stop request
(`vto_is_not_calling`), its option parsing (`configure`) and its pin-name
conversion (`set_button_value`).

Conventions of the embedding.

* C strings are `String`s; a `char` holds an octet `0..255`.  The target is
  Linux on ARM, where plain `char` is unsigned: the log sample in the header
  of the source (`80 60 7b ... ff ff f3`) prints octets above `0x7f` with two
  hex digits, which `%02x` does only for an unsigned `char`.
* `int` values are `Int`; where a conversion to `unsigned int` happens
  (`sleep`), it is written `% 2 ^ 32`.
* A call of `log_fatal` ends the process: it is the `Except.error` result.
* Threads are a ghost table of live (created, not yet joined) handles, each
  bound to the device it was created for.
-/

namespace Gong

/-! ## Constants -/

/-- The libc constant `BUFSIZ` (glibc value). -/
def BUFSIZ : Nat := 8192

/-- The Linux errno value `EAGAIN`. -/
def EAGAIN : Int := 11

/-- The Linux errno value `EWOULDBLOCK` (the same number as `EAGAIN`). -/
def EWOULDBLOCK : Int := 11

/-- The Linux errno value `ESRCH`, returned by `pthread_join` for a handle
that names no joinable thread. -/
def ESRCH : Int := 3

/-- The macro `DAHUA_PORT` of the source. -/
def DAHUA_PORT : Nat := 30000

/-- The macro `PRESS_BUTTON` of the source. -/
def PRESS_BUTTON : String := "1"

/-- The macro `RELEASE_BUTTON` of the source. -/
def RELEASE_BUTTON : String := "0"

/-- The two statically allocated devices `context.main` and `context.sub`. -/
inductive Device where
  | main
  | sub
  deriving DecidableEq, Repr

/-- The C struct `vto`. -/
structure vto where
  alias_name : String
  ip : String
  relay_pin : String
  call_in_progress : Int
  thread : Nat
  deriving DecidableEq, Repr

/-- The C struct `application`. -/
structure application where
  version : String
  debug : Int
  interface : String
  multicast : String
  relay_timeout : Int
  cooldown_timeout : Int
  main : vto
  sub : vto
  deriving DecidableEq, Repr

/-- The static initialiser of the global `context`. -/
def context : application :=
  { version := "0.5"
    debug := 0
    interface := ""
    multicast := "224.0.2.14"
    relay_timeout := 2
    cooldown_timeout := 10
    main := { alias_name := "MainVTO", ip := "", relay_pin := "PG6",
              call_in_progress := 0, thread := 0 }
    sub := { alias_name := "SubVTO", ip := "", relay_pin := "PG11",
             call_in_progress := 0, thread := 0 } }

/-- Observable actions of the program. -/
inductive Event where
  /-- One returned call `set_button_value( v, value )` for relay `pin`. -/
  | button (pin : String) (value : String)
  /-- One call `sleep( seconds )`. -/
  | sleep (seconds : Nat)
  /-- One call `pthread_create` giving `thread`, running `vto_is_calling` on `dev`. -/
  | create (thread : Nat) (dev : Device)
  /-- One returned call `pthread_join( thread )`. -/
  | join (thread : Nat)
  deriving DecidableEq, Repr

/-- The dispatcher state: the global `context`, the global `errno`, and the
ghost thread table (`threads` are the live handles with the device each
runs on, `next_thread` is the next handle `pthread_create` hands out). -/
structure State where
  context : application
  errno : Int
  threads : List (Nat × Device)
  next_thread : Nat
  deriving DecidableEq, Repr

/-- The device record `&context.main` or `&context.sub`. -/
def State.dev (s : State) : Device → vto
  | .main => s.context.main
  | .sub => s.context.sub

/-- Assignment through a `vto *` pointer. -/
def State.set_dev (s : State) (d : Device) (v : vto) : State :=
  match d with
  | .main => { s with context := { s.context with main := v } }
  | .sub => { s with context := { s.context with sub := v } }

/-- The live threads that run `vto_is_calling` on device `d`. -/
def State.tasks_of (s : State) (d : Device) : List (Nat × Device) :=
  s.threads.filter (fun t => t.2 = d)

/-! ## Threads -/

/-- The call `pthread_create( &v->thread, NULL, vto_is_calling, v )`: a
fresh handle is stored in `v->thread` and the new thread is live.  The
source does not inspect the return value; creation is taken to succeed. -/
def pthread_create (s : State) (d : Device) : State × List Event :=
  let h := s.next_thread
  let s1 := s.set_dev d { s.dev d with thread := h }
  ({ s1 with threads := s1.threads ++ [(h, d)], next_thread := h + 1 },
   [Event.create h d])

/-- The call `pthread_join( thread, NULL )`: returns `0` and retires the
thread when the handle is live, `ESRCH` otherwise.  The wait for the thread
to return is not part of this model; `vto_is_calling` below is what the
thread runs. -/
def pthread_join (s : State) (thread : Nat) : Int × State × List Event :=
  if s.threads.any (fun t => t.1 = thread) then
    (0, { s with threads := s.threads.filter (fun t => t.1 ≠ thread) },
     [Event.join thread])
  else
    (ESRCH, s, [])

/-! ## Stop request -/

/-- The function `vto_is_not_calling`. -/
def vto_is_not_calling (s : State) (d : Device) : Except String (State × List Event) :=
  if (s.dev d).call_in_progress ≠ 0 then
    let s1 := s.set_dev d { s.dev d with call_in_progress := 0 }
    let r := pthread_join s1 (s1.dev d).thread
    if r.1 ≠ 0 then
      .error "Failed to get returm value from thread"
    else
      .ok (r.2.1, r.2.2)
  else
    .ok (s, [])

/-- The function `interrupt_handler`, up to its final `exit( EXIT_SUCCESS )`. -/
def interrupt_handler (s : State) : Except String (State × List Event) :=
  match vto_is_not_calling s .main with
  | .error e => .error e
  | .ok (s1, e1) =>
    match vto_is_not_calling s1 .sub with
    | .error e => .error e
    | .ok (s2, e2) => .ok (s2, e1 ++ e2)

/-- The pair of stop requests `vto_is_not_calling( &context.main );
vto_is_not_calling( &context.sub );`, as the timeout branch of `main` and
`interrupt_handler` make them. -/
def stop_both (s : State) : Except String (State × List Event) :=
  match vto_is_not_calling s .main with
  | .error e => .error e
  | .ok (s1, e1) =>
    match vto_is_not_calling s1 .sub with
    | .error e => .error e
    | .ok (s2, e2) => .ok (s2, e1 ++ e2)

/-! ## Receive outcomes and the main loop -/

/-- What one call of `recvfrom` delivers: a datagram (its octets and the
text `inet_ntoa` gives for its source address) or a failure with `errno`. -/
inductive Recv where
  | datagram (bytes : List (Fin 256)) (ip_address : String)
  | failure (errno : Int)
  deriving DecidableEq, Repr

/-- The value `size` returned by `recvfrom`: the datagram length, cut at the
buffer size `sizeof( buffer ) = BUFSIZ`, or `-1`. -/
def Recv.size : Recv → Int
  | .datagram bytes _ => (min bytes.length BUFSIZ : Nat)
  | .failure _ => -1

/-- The octet `buffer[i]` after the call: the buffer was zeroed by `memset`
and holds the first `BUFSIZ` octets of the datagram. -/
def Recv.buffer (r : Recv) (i : Nat) : Nat :=
  match r with
  | .datagram bytes _ => ((bytes.take BUFSIZ).getD i 0).val
  | .failure _ => 0

/-- The text `ip_address = inet_ntoa( in->sin_addr )`. -/
def Recv.ip_address : Recv → String
  | .datagram _ ip => ip
  | .failure _ => ""

/-- The global `errno` after the call: set on failure, left alone otherwise. -/
def Recv.errno_after (r : Recv) (s : State) : Int :=
  match r with
  | .datagram _ _ => s.errno
  | .failure e => e

/-- The guard of `bytes_to_hex`: fatal when `size * 3 > length`. -/
def bytes_to_hex_fits (length size : Nat) : Bool :=
  decide (size * 3 ≤ length)

/-- One iteration of the `while( 1 )` loop of `main`, for the receive
outcome `r`. -/
def main_loop_step (s0 : State) (r : Recv) : Except String (State × List Event) :=
  let s := { s0 with errno := r.errno_after s0 }
  let size := r.size
  if size = -1 ∧ (s.errno = EAGAIN ∨ size = EWOULDBLOCK) then
    match vto_is_not_calling s .main with
    | .error e => .error e
    | .ok (s1, e1) =>
      match vto_is_not_calling s1 .sub with
      | .error e => .error e
      | .ok (s2, e2) => .ok (s2, e1 ++ e2)
  else if size < 0 then
    .error "Read data from socket error."
  else if size = 16 ∧ r.buffer 0 = 0x80 ∧ (r.buffer 1 = 0x60 ∨ r.buffer 1 = 0xe0) then
    if bytes_to_hex_fits BUFSIZ size.toNat then
      if r.ip_address = s.context.main.ip ∧ s.context.main.call_in_progress = 0 then
        .ok (pthread_create
          (s.set_dev .main { s.context.main with call_in_progress := 1 }) .main)
      else if r.ip_address = s.context.sub.ip ∧ s.context.sub.call_in_progress = 0 then
        .ok (pthread_create
          (s.set_dev .sub { s.context.sub with call_in_progress := 1 }) .sub)
      else
        .ok (s, [])
    else
      .error "Datagram can't be formatted to fit into the ascii buffer."
  else
    .ok (s, [])

/-! ## The actuation task -/

/-- The conversion of an `int` argument to the `unsigned int` parameter of
`sleep`. -/
def to_unsigned (n : Int) : Nat :=
  (n % 2 ^ 32).toNat

/-- The body of the `while` loop of `vto_is_calling`, where `r1` and `r2`
are the values the two `if( v->call_in_progress )` tests read: press, hold
if `r1`, release, cool down if `r2`. -/
def loop_body (ctx : application) (v : vto) (r1 r2 : Int) : List Event :=
  [Event.button v.relay_pin PRESS_BUTTON]
    ++ (if r1 ≠ 0 then [Event.sleep (to_unsigned ctx.relay_timeout)] else [])
    ++ [Event.button v.relay_pin RELEASE_BUTTON]
    ++ (if r2 ≠ 0 then
          [Event.sleep (to_unsigned (ctx.cooldown_timeout - ctx.relay_timeout))]
        else [])

/-- The function `vto_is_calling`, run on the values its successive reads
of `v->call_in_progress` give (the `while` test, the test before the press
hold, the test before the cooldown hold, the `while` test again, ...).
The result is the sequence of actions up to `return args`; it is `none`
when the list of reads ends before the task returns.  Each
`set_button_value` call is one `Event.button`; a call that does not return
ends the process and is not part of a trace. -/
def vto_is_calling (ctx : application) (v : vto) : List Int → Option (List Event)
  | [] => none
  | r0 :: rest =>
    if r0 ≠ 0 then
      match rest with
      | r1 :: r2 :: more =>
        match vto_is_calling ctx v more with
        | none => none
        | some tail => some (loop_body ctx v r1 r2 ++ tail)
      | _ => none
    else
      some []

/-- The relay writes of a trace, in order: the `value` of each
`set_button_value` call. -/
def relay_writes : List Event → List String
  | [] => []
  | Event.button _ value :: rest => value :: relay_writes rest
  | _ :: rest => relay_writes rest

/-! ## libc text functions -/

/-- The libc predicate `isspace` in the C locale. -/
def isspace (c : Char) : Bool :=
  c = ' ' || c = '\t' || c = '\n' || c = '\x0b' || c = '\x0c' || c = '\r'

/-- The value of the longest prefix of decimal digits, continuing from `acc`. -/
def leading_decimal : List Char → Nat → Nat
  | [], acc => acc
  | c :: cs, acc =>
    if c.isDigit then leading_decimal cs (acc * 10 + (c.toNat - '0'.toNat)) else acc

/-- Saturation to the range of a 32-bit `long`, as `strtol` does on the
32-bit ARM target. -/
def clamp_long (n : Int) : Int :=
  if n < -(2 ^ 31) then -(2 ^ 31) else if n > 2 ^ 31 - 1 then 2 ^ 31 - 1 else n

/-- The libc function `atoi`: white space, an optional sign, then decimal
digits; `0` when there is no digit. -/
def atoi (s : String) : Int :=
  match s.toList.dropWhile isspace with
  | '-' :: cs => clamp_long (-(leading_decimal cs 0 : Nat))
  | '+' :: cs => clamp_long (leading_decimal cs 0 : Nat)
  | cs => clamp_long (leading_decimal cs 0 : Nat)

/-- The `char` value `text[i]`, zero past the end of the text. -/
def char_at (text : String) (i : Nat) : Int :=
  match text.toList.get? i with
  | some c => (c.toNat : Int)
  | none => 0

/-- The port number of `set_button_value`:
`( v->relay_pin[1] - 'A' ) * 32 + atoi( v->relay_pin + 2 )`. -/
def gpio_number (v : vto) : Int :=
  (char_at v.relay_pin 1 - ('A'.toNat : Int)) * 32 + atoi (String.mk (v.relay_pin.toList.drop 2))

/-- The text `pin` of `set_button_value`: the port number under `%d`. -/
def gpio_pin (v : vto) : String :=
  toString (gpio_number v)

/-- The text `hw` of `set_button_value`. -/
def gpio_hw (v : vto) : String :=
  "/sys/class/gpio/gpio" ++ gpio_pin v

/-- The outcome of each system call one `set_button_value` call can make. -/
structure gpio_calls where
  stat_found : Bool
  export_open : Bool
  export_write : Bool
  direction_open : Bool
  direction_write : Bool
  value_open : Bool
  value_write : Bool
  deriving DecidableEq, Repr

/-- The function `set_button_value`: the file writes `(path, data)` it
performs, in order, or the fatal error that ends the process. -/
def set_button_value (io : gpio_calls) (v : vto) (value : String) :
    Except String (List (String × String)) :=
  let pin := gpio_pin v
  let hw := gpio_hw v
  let exported : Except String (List (String × String)) :=
    if !io.stat_found then
      if !io.export_open then .error "Failed to open /sys/class/gpio/export"
      else if !io.export_write then .error "Failed to write to /sys/class/gpio/export"
      else if !io.direction_open then .error "Failed to open direction"
      else if !io.direction_write then .error "Failed to write direction"
      else .ok [("/sys/class/gpio/export", pin), (hw ++ "/direction", "out")]
    else .ok []
  match exported with
  | .error e => .error e
  | .ok ws =>
    if !io.value_open then .error "Failed to open value"
    else if !io.value_write then .error "Failed to write value"
    else .ok (ws ++ [(hw ++ "/value", value)])

/-! ## libc: `inet_aton` -/

/-- The marker test of `main`, on the octets of a datagram: exactly 16
octets, the first `0x80`, the second `0x60` or `0xe0`. -/
def is_ring (bytes : List (Fin 256)) : Prop :=
  bytes.length = 16 ∧ bytes.get? 0 = some 0x80 ∧
    (bytes.get? 1 = some 0x60 ∨ bytes.get? 1 = some 0xe0)

instance (bytes : List (Fin 256)) : Decidable (is_ring bytes) := by
  unfold is_ring; infer_instance

/-- Device `d` of state `s` obeys the data model: while its
call-in-progress flag is set, the one live task of the device is the thread
its handle names; while it is clear, the device has no live task. -/
def device_consistent (s : State) (d : Device) : Prop :=
  ((s.dev d).call_in_progress ≠ 0 → s.tasks_of d = [((s.dev d).thread, d)]) ∧
  ((s.dev d).call_in_progress = 0 → s.tasks_of d = [])

instance (s : State) (d : Device) : Decidable (device_consistent s d) := by
  unfold device_consistent; infer_instance

/-- The invariant of the dispatcher: both devices obey the data model, and
the live thread handles are distinct and were all handed out already. -/
def Inv (s : State) : Prop :=
  device_consistent s .main ∧ device_consistent s .sub ∧
  (∀ t ∈ s.threads, t.1 < s.next_thread) ∧ (s.threads.map Prod.fst).Nodup

instance (s : State) : Decidable (Inv s) := by
  unfold Inv; infer_instance

/-- The states the main loop reaches from `s0`: any number of iterations,
each on any receive outcome on which the iteration is not fatal. -/
inductive Reachable (s0 : State) : State → Prop where
  | start : Reachable s0 s0
  | step (s s1 : State) (r : Recv) (ev : List Event) :
      Reachable s0 s → main_loop_step s r = .ok (s1, ev) → Reachable s0 s1

/-- A relay pin name of the form `P`, group letter `X`, decimal number `n`. -/
def pin_name (X : Char) (n : Nat) : String :=
  "P" ++ String.singleton X ++ toString n

/-- The ring datagram of the log sample in the header of the source. -/
def sample_ring : List (Fin 256) :=
  [0x80, 0x60, 0x7b, 0x3e, 0x47, 0x28, 0x84, 0x55,
   0xff, 0xff, 0xf3, 0x0f, 0x68, 0xce, 0x31, 0xb2]

/-- A datagram of 16 octets with the first octet of a ring and a third,
different second octet. -/
def sample_other : List (Fin 256) :=
  [0x80, 0x61, 0x7b, 0x3e, 0x47, 0x28, 0x84, 0x55,
   0xff, 0xff, 0xf3, 0x0f, 0x68, 0xce, 0x31, 0xb2]

/-- The configuration `-i 192.168.1.111 -m 192.168.1.108 -s 192.168.1.110`. -/
def two_addresses : application :=
  { context with
    interface := "192.168.1.111"
    main := { context.main with ip := "192.168.1.108" }
    sub := { context.sub with ip := "192.168.1.110" } }

/-- The configuration `-i 192.168.1.111 -m 192.168.1.108 -s 192.168.1.108`:
both devices are given the same address. -/
def shared_address : application :=
  { context with
    interface := "192.168.1.111"
    main := { context.main with ip := "192.168.1.108" }
    sub := { context.sub with ip := "192.168.1.108" } }

/-- The state in which the main loop starts with configuration `ctx`. -/
def initial (ctx : application) : State :=
  { context := ctx, errno := 0, threads := [], next_thread := 0 }

/-- The state with configuration `ctx` in which the main device has a call
in progress, run by thread `0`, and the sub device is idle. -/
def main_calling (ctx : application) : State :=
  { context := { ctx with main := { ctx.main with call_in_progress := 1, thread := 0 } }
    errno := 0
    threads := [(0, .main)]
    next_thread := 1 }

/-- The state with configuration `ctx` in which the sub device has a call
in progress, run by thread `0`, and the main device is idle. -/
def sub_calling (ctx : application) : State :=
  { context := { ctx with sub := { ctx.sub with call_in_progress := 1, thread := 0 } }
    errno := 0
    threads := [(0, .sub)]
    next_thread := 1 }

/-- The state with configuration `ctx` in which both devices have a call
in progress, the main one run by thread `0` and the sub one by thread `1`. -/
def both_calling (ctx : application) : State :=
  { context := { ctx with
      main := { ctx.main with call_in_progress := 1, thread := 0 }
      sub := { ctx.sub with call_in_progress := 1, thread := 1 } }
    errno := 0
    threads := [(0, .main), (1, .sub)]
    next_thread := 2 }

theorem size_datagram (bytes : List (Fin 256)) (ip : String) :
    (Recv.datagram bytes ip).size = ((min bytes.length BUFSIZ : Nat) : Int) := rfl

theorem size_datagram_eq_16 (bytes : List (Fin 256)) (ip : String) :
    (Recv.datagram bytes ip).size = 16 ↔ bytes.length = 16 := by
  rw [size_datagram]
  simp only [BUFSIZ]
  omega

theorem buffer_datagram (bytes : List (Fin 256)) (ip : String) (i : Nat) (hi : i < BUFSIZ) :
    (Recv.datagram bytes ip).buffer i = ((bytes.get? i).getD 0).val := by
  simp [Recv.buffer, List.getD_eq_getElem?_getD, List.getElem?_take, hi]

theorem octet_eq (bytes : List (Fin 256)) (i : Nat) (k : Fin 256) (hlen : i < bytes.length) :
    ((bytes.get? i).getD 0).val = k.val ↔ bytes.get? i = some k := by
  rw [List.get?_eq_get hlen]
  simp [Fin.ext_iff]

theorem set_errno_self (s : State) : { s with errno := s.errno } = s := rfl

/-- The loop body on a datagram, branch by branch. -/
theorem main_loop_step_datagram (s : State) (bytes : List (Fin 256)) (ip : String) :
    main_loop_step s (.datagram bytes ip) =
      if is_ring bytes then
        if ip = s.context.main.ip ∧ s.context.main.call_in_progress = 0 then
          .ok (pthread_create
            (s.set_dev .main { s.context.main with call_in_progress := 1 }) .main)
        else if ip = s.context.sub.ip ∧ s.context.sub.call_in_progress = 0 then
          .ok (pthread_create
            (s.set_dev .sub { s.context.sub with call_in_progress := 1 }) .sub)
        else .ok (s, [])
      else .ok (s, []) := by
  have hsz : (Recv.datagram bytes ip).size = ((min bytes.length BUFSIZ : Nat) : Int) := rfl
  have h1 : ¬ ((Recv.datagram bytes ip).size = -1) := by rw [hsz]; omega
  have h2 : ¬ ((Recv.datagram bytes ip).size < 0) := by rw [hsz]; omega
  unfold main_loop_step
  simp only [Recv.errno_after, set_errno_self, Recv.ip_address]
  rw [if_neg (fun h => h1 h.1), if_neg h2]
  by_cases hr : is_ring bytes
  · obtain ⟨hlen, hb0, hb1⟩ := hr
    have hs16 : (Recv.datagram bytes ip).size = 16 := (size_datagram_eq_16 bytes ip).2 hlen
    have e0 : (Recv.datagram bytes ip).buffer 0 = 0x80 := by
      rw [buffer_datagram _ _ _ (by decide), hb0]; rfl
    have e1 : (Recv.datagram bytes ip).buffer 1 = 0x60 ∨
        (Recv.datagram bytes ip).buffer 1 = 0xe0 := by
      rw [buffer_datagram _ _ _ (by decide)]
      rcases hb1 with h | h
      · left; rw [h]; rfl
      · right; rw [h]; rfl
    have hfit : bytes_to_hex_fits BUFSIZ (Recv.datagram bytes ip).size.toNat = true := by
      rw [hs16]; decide
    have hring : is_ring bytes := ⟨hlen, hb0, hb1⟩
    rw [if_pos ⟨hs16, e0, e1⟩, if_pos hfit, if_pos hring]
  · rw [if_neg hr, if_neg]
    rintro ⟨hs16, e0, e1⟩
    have hlen : bytes.length = 16 := (size_datagram_eq_16 bytes ip).1 hs16
    rw [buffer_datagram _ _ _ (by decide)] at e0 e1
    apply hr
    refine ⟨hlen, ?_, ?_⟩
    · exact (octet_eq bytes 0 0x80 (by omega)).1 e0
    · rcases e1 with h | h
      · exact Or.inl ((octet_eq bytes 1 0x60 (by omega)).1 h)
      · exact Or.inr ((octet_eq bytes 1 0xe0 (by omega)).1 h)


/-! ## Device records and the thread table -/

@[simp] theorem dev_set_dev_same (s : State) (d : Device) (v : vto) :
    (s.set_dev d v).dev d = v := by
  cases d <;> rfl

theorem dev_set_dev_other (s : State) (d e : Device) (v : vto) (h : e ≠ d) :
    (s.set_dev d v).dev e = s.dev e := by
  cases d <;> cases e <;> first | rfl | exact absurd rfl h

@[simp] theorem threads_set_dev (s : State) (d : Device) (v : vto) :
    (s.set_dev d v).threads = s.threads := by
  cases d <;> rfl

@[simp] theorem next_thread_set_dev (s : State) (d : Device) (v : vto) :
    (s.set_dev d v).next_thread = s.next_thread := by
  cases d <;> rfl

@[simp] theorem tasks_of_set_dev (s : State) (d e : Device) (v : vto) :
    (s.set_dev d v).tasks_of e = s.tasks_of e := by
  simp [State.tasks_of]

/-- What `pthread_create` leaves: the handle, the flag, the table. -/
theorem pthread_create_spec (s : State) (d : Device) :
    ((pthread_create s d).1.dev d).thread = s.next_thread ∧
    ((pthread_create s d).1.dev d).call_in_progress = (s.dev d).call_in_progress ∧
    (∀ e, e ≠ d → (pthread_create s d).1.dev e = s.dev e) ∧
    (pthread_create s d).1.threads = s.threads ++ [(s.next_thread, d)] ∧
    (pthread_create s d).1.next_thread = s.next_thread + 1 ∧
    (pthread_create s d).2 = [Event.create s.next_thread d] := by
  refine ⟨?_, ?_, ?_, ?_, ?_, rfl⟩
  · cases d <;> rfl
  · cases d <;> rfl
  · intro e he
    cases d <;> cases e <;> first | rfl | exact absurd rfl he
  · cases d <;> rfl
  · cases d <;> rfl

theorem tasks_of_pthread_create (s : State) (d e : Device) :
    (pthread_create s d).1.tasks_of e =
      s.tasks_of e ++ (if d = e then [(s.next_thread, d)] else []) := by
  unfold State.tasks_of
  rw [(pthread_create_spec s d).2.2.2.1, List.filter_append]
  by_cases h : d = e <;> simp [h]


/-! ## The main loop on datagrams -/

/-- C6. A successfully received datagram that is not a ring (its length is
not 16, or its first octet is not `0x80`, or its second octet is neither
`0x60` nor `0xe0`) is discarded: the iteration is not fatal, produces no
event (no task started or joined, no relay write) and leaves the whole
state, both call-in-progress flags included, as it was, whatever the
content and the source address. -/
theorem non_ring_datagram_discarded (s : State) (bytes : List (Fin 256)) (ip : String)
    (h : bytes.length ≠ 16 ∨ bytes.get? 0 ≠ some 0x80 ∨
      (bytes.get? 1 ≠ some 0x60 ∧ bytes.get? 1 ≠ some 0xe0)) :
    main_loop_step s (.datagram bytes ip) = .ok (s, []) := by
  rw [main_loop_step_datagram, if_neg]
  rintro ⟨hlen, h0, h1⟩
  rcases h with h | h | h
  · exact h hlen
  · exact h h0
  · rcases h1 with h1 | h1
    · exact h.1 h1
    · exact h.2 h1

/-- The loop body on a datagram is never fatal, creates at most one thread
and joins none. -/
theorem main_loop_step_datagram_cases (s : State) (bytes : List (Fin 256)) (ip : String) :
    main_loop_step s (.datagram bytes ip) = .ok (s, []) ∨
    (is_ring bytes ∧ ip = s.context.main.ip ∧ s.context.main.call_in_progress = 0 ∧
      main_loop_step s (.datagram bytes ip) = .ok (pthread_create
        (s.set_dev .main { s.context.main with call_in_progress := 1 }) .main)) ∨
    (is_ring bytes ∧ ip = s.context.sub.ip ∧ s.context.sub.call_in_progress = 0 ∧
      ¬ (ip = s.context.main.ip ∧ s.context.main.call_in_progress = 0) ∧
      main_loop_step s (.datagram bytes ip) = .ok (pthread_create
        (s.set_dev .sub { s.context.sub with call_in_progress := 1 }) .sub)) := by
  rw [main_loop_step_datagram]
  by_cases hr : is_ring bytes
  · rw [if_pos hr]
    by_cases hm : ip = s.context.main.ip ∧ s.context.main.call_in_progress = 0
    · rw [if_pos hm]; exact Or.inr (Or.inl ⟨hr, hm.1, hm.2, rfl⟩)
    · rw [if_neg hm]
      by_cases hs : ip = s.context.sub.ip ∧ s.context.sub.call_in_progress = 0
      · rw [if_pos hs]; exact Or.inr (Or.inr ⟨hr, hs.1, hs.2, hm, rfl⟩)
      · rw [if_neg hs]; exact Or.inl rfl
  · rw [if_neg hr]; exact Or.inl rfl

/-- Starting a task for the idle device `d`: the resulting state. -/
theorem start_task_spec (s : State) (d : Device) :
    ∃ s1, pthread_create (s.set_dev d { s.dev d with call_in_progress := 1 }) d =
        (s1, [Event.create s.next_thread d]) ∧
      (s1.dev d).call_in_progress = 1 ∧ (s1.dev d).thread = s.next_thread ∧
      (s1.dev d).ip = (s.dev d).ip ∧
      (∀ e, e ≠ d → s1.dev e = s.dev e) ∧
      (∀ e, s1.tasks_of e = s.tasks_of e ++ (if d = e then [(s.next_thread, d)] else [])) ∧
      s1.threads = s.threads ++ [(s.next_thread, d)] ∧
      s1.next_thread = s.next_thread + 1 := by
  refine ⟨(pthread_create (s.set_dev d { s.dev d with call_in_progress := 1 }) d).1,
    ?_, ?_, ?_, ?_, ?_, ?_, ?_, ?_⟩
  · cases d <;> rfl
  · cases d <;> rfl
  · cases d <;> rfl
  · cases d <;> rfl
  · intro e he
    cases d <;> cases e <;> first | rfl | exact absurd rfl he
  · intro e
    rw [tasks_of_pthread_create]
    simp
  · cases d <;> rfl
  · cases d <;> rfl

/-- C1, amended. A ring datagram (16 octets, the first `0x80`, the second
`0x60` or `0xe0`, the rest arbitrary) from the address of an idle device
`d` starts a task for `d`: afterwards the flag of `d` is `1`, its handle is
the fresh thread and that thread is live on `d`.  For the sub device this
needs the main branch not to be taken first: the source address differs
from the main address, or the main device has a call in progress. -/
theorem ring_starts_task (s : State) (d : Device) (bytes : List (Fin 256)) (ip : String)
    (hlen : bytes.length = 16) (h0 : bytes.get? 0 = some 0x80)
    (h1 : bytes.get? 1 = some 0x60 ∨ bytes.get? 1 = some 0xe0)
    (hidle : (s.dev d).call_in_progress = 0) (hip : ip = (s.dev d).ip)
    (hfirst : d = .sub →
      ip ≠ s.context.main.ip ∨ s.context.main.call_in_progress ≠ 0) :
    ∃ s1, main_loop_step s (.datagram bytes ip) =
        .ok (s1, [Event.create s.next_thread d]) ∧
      (s1.dev d).call_in_progress = 1 ∧ (s1.dev d).thread = s.next_thread ∧
      s1.tasks_of d = s.tasks_of d ++ [(s.next_thread, d)] := by
  have hr : is_ring bytes := ⟨hlen, h0, h1⟩
  rw [main_loop_step_datagram, if_pos hr]
  cases d with
  | main =>
    obtain ⟨s1, e, hc, ht, -, -, htasks, -, -⟩ := start_task_spec s .main
    rw [if_pos ⟨hip, hidle⟩]
    refine ⟨s1, by rw [← e]; rfl, hc, ht, ?_⟩
    rw [htasks]; simp
  | sub =>
    obtain ⟨s1, e, hc, ht, -, -, htasks, -, -⟩ := start_task_spec s .sub
    have hm : ¬ (ip = s.context.main.ip ∧ s.context.main.call_in_progress = 0) := by
      rintro ⟨ha, hb⟩
      rcases hfirst rfl with h | h
      · exact h ha
      · exact h hb
    rw [if_neg hm, if_pos ⟨hip, hidle⟩]
    refine ⟨s1, by rw [← e]; rfl, hc, ht, ?_⟩
    rw [htasks]; simp

/-- C5, amended. First match wins.  A ring datagram from the main address
leaves the sub device record (flag and handle) and the live tasks of the
sub device as they were, unless the main device has a call in progress
while the sub device is idle and configured with that same address.  A
ring datagram from any other address leaves the main device record and its
live tasks as they were.  In both cases no thread is joined. -/
theorem ring_attribution_frame (s : State) (bytes : List (Fin 256)) (ip : String)
    (hlen : bytes.length = 16) (h0 : bytes.get? 0 = some 0x80)
    (h1 : bytes.get? 1 = some 0x60 ∨ bytes.get? 1 = some 0xe0) :
    (ip = s.context.main.ip →
      ¬ (s.context.main.call_in_progress ≠ 0 ∧ ip = s.context.sub.ip ∧
          s.context.sub.call_in_progress = 0) →
      ∃ s1 ev, main_loop_step s (.datagram bytes ip) = .ok (s1, ev) ∧
        s1.dev .sub = s.dev .sub ∧ s1.tasks_of .sub = s.tasks_of .sub ∧
        (∀ h, Event.create h .sub ∉ ev) ∧ (∀ h, Event.join h ∉ ev)) ∧
    (ip ≠ s.context.main.ip →
      ∃ s1 ev, main_loop_step s (.datagram bytes ip) = .ok (s1, ev) ∧
        s1.dev .main = s.dev .main ∧ s1.tasks_of .main = s.tasks_of .main ∧
        (∀ h, Event.create h .main ∉ ev) ∧ (∀ h, Event.join h ∉ ev)) := by
  have hr : is_ring bytes := ⟨hlen, h0, h1⟩
  constructor
  · intro hip hne
    rcases main_loop_step_datagram_cases s bytes ip with h | ⟨-, -, -, h⟩ | ⟨-, hs, hsi, hm, -⟩
    · exact ⟨s, [], h, rfl, rfl, by simp, by simp⟩
    · obtain ⟨s1, e, -, -, -, hother, htasks, -, -⟩ := start_task_spec s .main
      refine ⟨s1, _, by rw [h]; exact congrArg _ e, hother .sub (by decide), ?_, ?_, ?_⟩
      · rw [htasks]; simp
      · simp
      · simp
    · exfalso
      apply hne
      refine ⟨fun hz => hm ⟨hip, hz⟩, hs, hsi⟩
  · intro hip
    rcases main_loop_step_datagram_cases s bytes ip with h | ⟨-, hm, -, -⟩ | ⟨-, -, -, -, h⟩
    · exact ⟨s, [], h, rfl, rfl, by simp, by simp⟩
    · exact absurd hm hip
    · obtain ⟨s1, e, -, -, -, hother, htasks, -, -⟩ := start_task_spec s .sub
      refine ⟨s1, _, by rw [h]; exact congrArg _ e, hother .main (by decide), ?_, ?_, ?_⟩
      · rw [htasks]; simp
      · simp
      · simp


/-! ## The stop request -/

/-- A stop request on an idle device does nothing. -/
theorem vto_is_not_calling_idle (s : State) (d : Device)
    (h : (s.dev d).call_in_progress = 0) : vto_is_not_calling s d = .ok (s, []) := by
  unfold vto_is_not_calling
  rw [if_neg (by simpa using h)]

/-- A stop request on a device with a call in progress whose handle names
a live thread: the flag is cleared and the thread is joined. -/
theorem vto_is_not_calling_busy (s : State) (d : Device)
    (hbusy : (s.dev d).call_in_progress ≠ 0)
    (hlive : ((s.dev d).thread, d) ∈ s.threads) :
    ∃ s1, vto_is_not_calling s d = .ok (s1, [Event.join (s.dev d).thread]) ∧
      s1.dev d = { s.dev d with call_in_progress := 0 } ∧
      (∀ e, e ≠ d → s1.dev e = s.dev e) ∧
      s1.threads = s.threads.filter (fun t => t.1 ≠ (s.dev d).thread) ∧
      s1.next_thread = s.next_thread ∧ s1.errno = s.errno := by
  have hany : s.threads.any (fun t => decide (t.1 = (s.dev d).thread)) = true := by
    rw [List.any_eq_true]
    exact ⟨_, hlive, by simp⟩
  refine ⟨{ s.set_dev d { s.dev d with call_in_progress := 0 } with
      threads := s.threads.filter (fun t => t.1 ≠ (s.dev d).thread) }, ?_, ?_, ?_, ?_, ?_, ?_⟩
  · unfold vto_is_not_calling
    rw [if_pos hbusy]
    simp only [dev_set_dev_same, pthread_join, threads_set_dev, hany, if_true]
    simp
  · cases d <;> rfl
  · intro e he
    cases d <;> cases e <;> first | rfl | exact absurd rfl he
  · rfl
  · cases d <;> rfl
  · cases d <;> rfl

/-- Two live threads on different devices have different handles. -/
theorem handle_ne_of_nodup (threads : List (Nat × Device)) (h k : Nat) (d e : Device)
    (hnd : (threads.map Prod.fst).Nodup) (hd : (h, d) ∈ threads) (he : (k, e) ∈ threads)
    (hne : d ≠ e) : k ≠ h := by
  intro hk
  subst hk
  have := List.inj_on_of_nodup_map hnd hd he rfl
  exact hne (congrArg Prod.snd this)

theorem mem_threads_of_tasks_of (s : State) (d : Device) (h : Nat)
    (ht : s.tasks_of d = [(h, d)]) : (h, d) ∈ s.threads := by
  have : (h, d) ∈ s.tasks_of d := by rw [ht]; simp
  exact (List.mem_filter.1 this).1

/-- The tasks of a device after a thread was retired from the table. -/
theorem tasks_of_filter (threads : List (Nat × Device)) (e : Device) (h : Nat) :
    (threads.filter (fun t => t.1 ≠ h)).filter (fun t => t.2 = e) =
      (threads.filter (fun t => t.2 = e)).filter (fun t => t.1 ≠ h) := by
  rw [List.filter_filter, List.filter_filter]
  congr 1
  funext t
  exact Bool.and_comm _ _

/-- A stop request keeps the invariant, clears the device and retires its
task; the other device is untouched. -/
theorem vto_is_not_calling_inv (s : State) (d : Device) (hinv : Inv s) :
    ∃ s1, vto_is_not_calling s d =
        .ok (s1, if (s.dev d).call_in_progress ≠ 0 then [Event.join (s.dev d).thread] else []) ∧
      Inv s1 ∧ (s1.dev d).call_in_progress = 0 ∧ s1.tasks_of d = [] ∧
      ((s.dev d).call_in_progress = 0 → s1 = s) ∧
      (∀ e, e ≠ d → s1.dev e = s.dev e ∧ s1.tasks_of e = s.tasks_of e) ∧
      s1.errno = s.errno := by
  have hcons : ∀ e, device_consistent s e := by
    intro e; cases e
    · exact hinv.1
    · exact hinv.2.1
  by_cases hbusy : (s.dev d).call_in_progress ≠ 0
  · have htasks := (hcons d).1 hbusy
    have hlive := mem_threads_of_tasks_of s d _ htasks
    obtain ⟨s1, hrun, hdev, hother, hthreads, hnext, herr⟩ :=
      vto_is_not_calling_busy s d hbusy hlive
    have hd_tasks : s1.tasks_of d = [] := by
      unfold State.tasks_of at htasks ⊢
      rw [hthreads, tasks_of_filter, htasks]
      simp
    have he_tasks : ∀ e, e ≠ d → s1.tasks_of e = s.tasks_of e := by
      intro e he
      unfold State.tasks_of
      rw [hthreads, tasks_of_filter]
      apply List.filter_eq_self.2
      intro t ht
      have htm := List.mem_filter.1 ht
      have hte : t.2 = e := by simpa using htm.2
      have : t.1 ≠ (s.dev d).thread := by
        apply handle_ne_of_nodup s.threads _ _ d e hinv.2.2.2 hlive
        · have : t = (t.1, e) := by rw [← hte]
          rw [← this]; exact htm.1
        · exact fun h => he h.symm
      simpa using this
    have hcons1 : ∀ e, device_consistent s1 e := by
      intro e
      by_cases he : e = d
      · subst he
        constructor
        · intro h; rw [hdev] at h; exact absurd rfl h
        · intro _; exact hd_tasks
      · rw [device_consistent, (hother e he), he_tasks e he]
        exact hcons e
    refine ⟨s1, by rw [hrun, if_pos hbusy], ⟨hcons1 .main, hcons1 .sub, ?_, ?_⟩, ?_, hd_tasks,
      fun h => absurd h hbusy, fun e he => ⟨hother e he, he_tasks e he⟩, herr⟩
    · intro t ht
      rw [hthreads] at ht
      rw [hnext]
      exact hinv.2.2.1 t (List.mem_filter.1 ht).1
    · rw [hthreads]
      exact (List.Sublist.map _ (List.filter_sublist _)).nodup hinv.2.2.2
    · rw [hdev]
  · have hidle : (s.dev d).call_in_progress = 0 := by simpa using hbusy
    refine ⟨s, by rw [vto_is_not_calling_idle s d hidle, if_neg hbusy], hinv, hidle,
      (hcons d).2 hidle, fun _ => rfl, fun e _ => ⟨rfl, rfl⟩, rfl⟩


/-! ## The main loop on a failed receive -/

/-- The loop body on a failed receive: a timeout when `errno` is `EAGAIN`,
fatal otherwise. -/
theorem main_loop_step_failure (s : State) (e : Int) :
    main_loop_step s (.failure e) =
      if e = EAGAIN then stop_both { s with errno := e }
      else .error "Read data from socket error." := by
  unfold main_loop_step stop_both
  simp only [Recv.errno_after, Recv.size]
  by_cases he : e = EAGAIN
  · rw [if_pos ⟨trivial, Or.inl he⟩, if_pos he]
  · have hw : ¬ ((-1 : Int) = EWOULDBLOCK) := by decide
    rw [if_neg (fun h => h.2.elim he hw), if_neg he, if_pos (by decide)]

theorem inv_set_errno (s : State) (e : Int) (hinv : Inv s) : Inv { s with errno := e } :=
  hinv

/-- Both stop requests in a state that obeys the invariant. -/
theorem stop_both_inv (s : State) (hinv : Inv s) :
    ∃ s1, stop_both s = .ok (s1,
        (if s.context.main.call_in_progress ≠ 0 then [Event.join s.context.main.thread]
          else []) ++
        (if s.context.sub.call_in_progress ≠ 0 then [Event.join s.context.sub.thread]
          else [])) ∧
      Inv s1 ∧ (∀ d, (s1.dev d).call_in_progress = 0 ∧ s1.tasks_of d = []) ∧
      (∀ d, (s.dev d).call_in_progress = 0 → s1.dev d = s.dev d) ∧
      s1.errno = s.errno := by
  obtain ⟨s1, hrun1, hinv1, hflag1, htasks1, hsame1, hother1, herr1⟩ :=
    vto_is_not_calling_inv s .main hinv
  obtain ⟨s2, hrun2, hinv2, hflag2, htasks2, hsame2, hother2, herr2⟩ :=
    vto_is_not_calling_inv s1 .sub hinv1
  have hsub1 := hother1 .sub (by decide)
  have hmain2 := hother2 .main (by decide)
  refine ⟨s2, ?_, hinv2, ?_, ?_, by rw [herr2, herr1]⟩
  · unfold stop_both
    rw [hrun1]
    simp only
    rw [hrun2, hsub1.1]
    rfl
  · intro d
    cases d
    · exact ⟨by rw [hmain2.1]; exact hflag1, by rw [hmain2.2]; exact htasks1⟩
    · exact ⟨hflag2, htasks2⟩
  · intro d hd
    cases d
    · rw [hmain2.1, hsame1 hd]
    · have : (s1.dev .sub).call_in_progress = 0 := by rw [hsub1.1]; exact hd
      rw [hsame2 this, hsub1.1]

/-- C3. Timeout outcome.  In a state that obeys the data model, when
`recvfrom` reports a timeout (`-1` with `errno` `EAGAIN`, which is also
`EWOULDBLOCK`), the iteration is not fatal, joins the thread of exactly the
devices whose flag was set (main first, then sub), and leaves every device
with the flag clear and no live task; a device whose flag was clear is left
unchanged.  A stop request (`vto_is_not_calling`) on a device whose flag is
clear produces no event (no relay write, no join) and leaves the state
unchanged. -/
theorem timeout_stops_all (s : State) (e : Int) (he : e = EAGAIN ∨ e = EWOULDBLOCK)
    (hinv : Inv s) :
    (∃ s1, main_loop_step s (.failure e) = .ok (s1,
        (if s.context.main.call_in_progress ≠ 0 then [Event.join s.context.main.thread]
          else []) ++
        (if s.context.sub.call_in_progress ≠ 0 then [Event.join s.context.sub.thread]
          else [])) ∧
      (∀ d, (s1.dev d).call_in_progress = 0 ∧ s1.tasks_of d = []) ∧
      (∀ d, (s.dev d).call_in_progress = 0 → s1.dev d = s.dev d)) ∧
    (∀ d, (s.dev d).call_in_progress = 0 → vto_is_not_calling s d = .ok (s, [])) := by
  have he1 : e = EAGAIN := by
    rcases he with h | h
    · exact h
    · exact h
  constructor
  · obtain ⟨s1, hrun, -, hclear, hsame, -⟩ := stop_both_inv _ (inv_set_errno s e hinv)
    refine ⟨s1, ?_, hclear, hsame⟩
    rw [main_loop_step_failure, if_pos he1]
    exact hrun
  · intro d hd
    exact vto_is_not_calling_idle s d hd

/-- C10. Silence is detected only globally.  On every successfully
received datagram, whatever its length, content and source address, the
iteration is not fatal, leaves unchanged every device whose flag is set
(flag and handle), joins no thread and retires no live thread.  An
iteration of the main loop that turns the flag of a device from set to
clear is one whose receive failed with `errno` `EAGAIN`, the timeout. -/
theorem flag_cleared_only_on_timeout (s : State) :
    (∀ bytes ip, ∃ s1 ev, main_loop_step s (.datagram bytes ip) = .ok (s1, ev) ∧
      (∀ d, (s.dev d).call_in_progress ≠ 0 → s1.dev d = s.dev d) ∧
      (∀ h, Event.join h ∉ ev) ∧ (∀ t ∈ s.threads, t ∈ s1.threads)) ∧
    (∀ r s1 ev d, main_loop_step s r = .ok (s1, ev) →
      (s.dev d).call_in_progress ≠ 0 → (s1.dev d).call_in_progress = 0 →
      r = .failure EAGAIN) := by
  have hdatagram : ∀ bytes ip, ∃ s1 ev, main_loop_step s (.datagram bytes ip) = .ok (s1, ev) ∧
      (∀ d, (s.dev d).call_in_progress ≠ 0 → s1.dev d = s.dev d) ∧
      (∀ h, Event.join h ∉ ev) ∧ (∀ t ∈ s.threads, t ∈ s1.threads) := by
    intro bytes ip
    rcases main_loop_step_datagram_cases s bytes ip with h | ⟨-, -, hidle, h⟩ | ⟨-, -, hidle, -, h⟩
    · exact ⟨s, [], h, fun _ _ => rfl, by simp, fun _ ht => ht⟩
    · obtain ⟨s1, e, -, -, -, hother, -, hthreads, -⟩ := start_task_spec s .main
      refine ⟨s1, _, by rw [h]; exact congrArg _ e, ?_, by simp, ?_⟩
      · intro d hd
        cases d
        · exact absurd hidle hd
        · exact hother .sub (by decide)
      · intro t ht; rw [hthreads]; exact List.mem_append_left _ ht
    · obtain ⟨s1, e, -, -, -, hother, -, hthreads, -⟩ := start_task_spec s .sub
      refine ⟨s1, _, by rw [h]; exact congrArg _ e, ?_, by simp, ?_⟩
      · intro d hd
        cases d
        · exact hother .main (by decide)
        · exact absurd hidle hd
      · intro t ht; rw [hthreads]; exact List.mem_append_left _ ht
  refine ⟨hdatagram, ?_⟩
  intro r s1 ev d hrun hset hclear
  cases r with
  | datagram bytes ip =>
    obtain ⟨s2, ev2, hrun2, hkeep, -, -⟩ := hdatagram bytes ip
    rw [hrun2] at hrun
    injection hrun with hrun
    injection hrun with hs _
    subst hs
    rw [hkeep d hset] at hclear
    exact absurd hclear hset
  | failure e =>
    rw [main_loop_step_failure] at hrun
    by_cases he : e = EAGAIN
    · rw [he]
    · rw [if_neg he] at hrun
      cases hrun


/-! ## The invariant over the reachable states -/

/-- Starting a task on an idle device keeps the invariant. -/
theorem start_task_inv (s : State) (d : Device) (hinv : Inv s)
    (hidle : (s.dev d).call_in_progress = 0) :
    Inv (pthread_create (s.set_dev d { s.dev d with call_in_progress := 1 }) d).1 := by
  obtain ⟨s1, hcreate, hflag, hthread, -, hother, htasks, hthreads, hnext⟩ :=
    start_task_spec s d
  rw [hcreate]
  have hcons : ∀ e, device_consistent s e := by
    intro e; cases e
    · exact hinv.1
    · exact hinv.2.1
  have hcons1 : ∀ e, device_consistent s1 e := by
    intro e
    by_cases he : e = d
    · subst he
      constructor
      · intro _
        rw [htasks, (hcons e).2 hidle, hthread]
        simp
      · intro h; rw [hflag] at h; exact absurd h (by decide)
    · have hde : ¬ d = e := fun h => he h.symm
      rw [device_consistent, hother e he, htasks, if_neg hde, List.append_nil]
      exact hcons e
  refine ⟨hcons1 .main, hcons1 .sub, ?_, ?_⟩
  · intro t ht
    show t.1 < s1.next_thread
    rw [hnext]
    have ht' : t ∈ s.threads ++ [(s.next_thread, d)] := by rw [← hthreads]; exact ht
    rcases List.mem_append.1 ht' with h | h
    · exact Nat.lt_succ_of_lt (hinv.2.2.1 t h)
    · rw [List.mem_singleton.1 h]; exact Nat.lt_succ_self _
  · show (s1.threads.map Prod.fst).Nodup
    rw [hthreads, List.map_append, List.nodup_append]
    refine ⟨hinv.2.2.2, by simp, ?_⟩
    intro a ha hb
    simp only [List.map_cons, List.map_nil, List.mem_singleton] at hb
    obtain ⟨t, ht, hta⟩ := List.mem_map.1 ha
    have := hinv.2.2.1 t ht
    omega

/-- Every non-fatal iteration of the main loop keeps the invariant. -/
theorem main_loop_step_inv (s s1 : State) (r : Recv) (ev : List Event) (hinv : Inv s)
    (hrun : main_loop_step s r = .ok (s1, ev)) : Inv s1 := by
  cases r with
  | datagram bytes ip =>
    rcases main_loop_step_datagram_cases s bytes ip with h | ⟨-, -, hidle, h⟩ | ⟨-, -, hidle, -, h⟩
    · rw [h] at hrun
      injection hrun with hrun
      injection hrun with hs _
      rw [← hs]; exact hinv
    · rw [h] at hrun
      injection hrun with hrun
      have hs : s1 = (pthread_create
          (s.set_dev .main { s.dev .main with call_in_progress := 1 }) .main).1 := by
        rw [show s.dev .main = s.context.main from rfl, hrun]
      rw [hs]
      exact start_task_inv s .main hinv hidle
    · rw [h] at hrun
      injection hrun with hrun
      have hs : s1 = (pthread_create
          (s.set_dev .sub { s.dev .sub with call_in_progress := 1 }) .sub).1 := by
        rw [show s.dev .sub = s.context.sub from rfl, hrun]
      rw [hs]
      exact start_task_inv s .sub hinv hidle
  | failure e =>
    rw [main_loop_step_failure] at hrun
    by_cases he : e = EAGAIN
    · rw [if_pos he] at hrun
      obtain ⟨s2, hrun2, hinv2, -, -, -⟩ := stop_both_inv _ (inv_set_errno s e hinv)
      rw [hrun2] at hrun
      injection hrun with hrun
      injection hrun with hs _
      rw [← hs]; exact hinv2
    · rw [if_neg he] at hrun
      cases hrun

/-- The invariant holds in every state the main loop reaches from a state
with both devices idle and no thread. -/
theorem reachable_inv (s0 s : State) (hthreads : s0.threads = [])
    (hmain : s0.context.main.call_in_progress = 0)
    (hsub : s0.context.sub.call_in_progress = 0) (hreach : Reachable s0 s) : Inv s := by
  induction hreach with
  | start =>
    refine ⟨⟨fun h => absurd hmain h, fun _ => ?_⟩, ⟨fun h => absurd hsub h, fun _ => ?_⟩, ?_, ?_⟩
    · simp [State.tasks_of, hthreads]
    · simp [State.tasks_of, hthreads]
    · intro t ht; rw [hthreads] at ht; cases ht
    · rw [hthreads]; exact List.nodup_nil
  | step s s1 r ev _ hrun ih => exact main_loop_step_inv s s1 r ev ih hrun

/-- C2. One task per device.  In every state the main loop reaches from
an initial state with both devices idle and no thread, by any sequence of
iterations (ring datagram, other datagram, receive timeout), each device
has its flag set if and only if exactly one task is live for it and its
handle names that task, and it never has more than one live task.  In
particular a ring datagram from the address of a device whose flag is set
is not fatal, creates no thread for that device and leaves its record
(flag and handle) and its live task unchanged. -/
theorem one_task_per_device (s0 s : State) (hthreads : s0.threads = [])
    (hmain : s0.context.main.call_in_progress = 0)
    (hsub : s0.context.sub.call_in_progress = 0) (hreach : Reachable s0 s) :
    (∀ d, ((s.dev d).call_in_progress ≠ 0 ↔ s.tasks_of d = [((s.dev d).thread, d)]) ∧
      (s.tasks_of d).length ≤ 1) ∧
    (∀ d bytes ip, bytes.length = 16 → bytes.get? 0 = some 0x80 →
      (bytes.get? 1 = some 0x60 ∨ bytes.get? 1 = some 0xe0) →
      (s.dev d).call_in_progress ≠ 0 → ip = (s.dev d).ip →
      ∃ s1 ev, main_loop_step s (.datagram bytes ip) = .ok (s1, ev) ∧
        s1.dev d = s.dev d ∧ s1.tasks_of d = s.tasks_of d ∧
        (∀ h, Event.create h d ∉ ev) ∧ (∀ h, Event.join h ∉ ev)) := by
  have hinv := reachable_inv s0 s hthreads hmain hsub hreach
  have hcons : ∀ e, device_consistent s e := by
    intro e; cases e
    · exact hinv.1
    · exact hinv.2.1
  constructor
  · intro d
    by_cases hbusy : (s.dev d).call_in_progress ≠ 0
    · have ht := (hcons d).1 hbusy
      exact ⟨⟨fun _ => ht, fun _ => hbusy⟩, by rw [ht]; simp⟩
    · have hidle : (s.dev d).call_in_progress = 0 := by simpa using hbusy
      have ht := (hcons d).2 hidle
      refine ⟨⟨fun h => absurd h hbusy, fun h => ?_⟩, by rw [ht]; simp⟩
      rw [ht] at h
      cases h
  · intro d bytes ip _ _ _ hbusy _
    rcases main_loop_step_datagram_cases s bytes ip with h | ⟨-, -, hidle, h⟩ | ⟨-, -, hidle, -, h⟩
    · exact ⟨s, [], h, rfl, rfl, by simp, by simp⟩
    · obtain ⟨s1, e, -, -, -, hother, htasks, -, -⟩ := start_task_spec s .main
      cases d with
      | main => exact absurd hidle hbusy
      | sub =>
        refine ⟨s1, _, by rw [h]; exact congrArg _ e, hother .sub (by decide), ?_, ?_, ?_⟩
        · rw [htasks]; simp
        · simp
        · simp
    · obtain ⟨s1, e, -, -, -, hother, htasks, -, -⟩ := start_task_spec s .sub
      cases d with
      | sub => exact absurd hidle hbusy
      | main =>
        refine ⟨s1, _, by rw [h]; exact congrArg _ e, hother .main (by decide), ?_, ?_, ?_⟩
        · rw [htasks]; simp
        · simp
        · simp


/-! ## The actuation task -/

theorem vto_is_calling_stop (ctx : application) (v : vto) (rest : List Int) :
    vto_is_calling ctx v (0 :: rest) = some [] := by
  unfold vto_is_calling
  simp

theorem vto_is_calling_round (ctx : application) (v : vto) (r0 r1 r2 : Int)
    (more : List Int) (h : r0 ≠ 0) :
    vto_is_calling ctx v (r0 :: r1 :: r2 :: more) =
      (vto_is_calling ctx v more).map (fun tail => loop_body ctx v r1 r2 ++ tail) := by
  conv_lhs => unfold vto_is_calling
  rw [if_pos h]
  dsimp only
  cases vto_is_calling ctx v more <;> rfl

theorem vto_is_calling_short (ctx : application) (v : vto) (r0 : Int) (rest : List Int)
    (h : r0 ≠ 0) (hlen : rest.length < 2) : vto_is_calling ctx v (r0 :: rest) = none := by
  match rest, hlen with
  | [], _ => unfold vto_is_calling; simp [h]
  | [_], _ => unfold vto_is_calling; simp [h]

/-- The task returns on every sequence of reads that ends in three reads
of a clear flag. -/
theorem vto_is_calling_returns (ctx : application) (v : vto) :
    ∀ pre : List Int, ∃ t, vto_is_calling ctx v (pre ++ [0, 0, 0]) = some t
  | [] => ⟨[], vto_is_calling_stop ctx v _⟩
  | [r0] => by
    by_cases h : r0 = 0
    · subst h; exact ⟨[], vto_is_calling_stop ctx v _⟩
    · exact ⟨_, by
        show vto_is_calling ctx v (r0 :: 0 :: 0 :: [0]) = _
        rw [vto_is_calling_round ctx v r0 0 0 [0] h, vto_is_calling_stop]; rfl⟩
  | [r0, r1] => by
    by_cases h : r0 = 0
    · subst h; exact ⟨[], vto_is_calling_stop ctx v _⟩
    · exact ⟨_, by
        show vto_is_calling ctx v (r0 :: r1 :: 0 :: [0, 0]) = _
        rw [vto_is_calling_round ctx v r0 r1 0 [0, 0] h, vto_is_calling_stop]; rfl⟩
  | r0 :: r1 :: r2 :: more => by
    by_cases h : r0 = 0
    · subst h; exact ⟨[], vto_is_calling_stop ctx v _⟩
    · obtain ⟨t, ht⟩ := vto_is_calling_returns ctx v more
      exact ⟨_, by
        show vto_is_calling ctx v (r0 :: r1 :: r2 :: (more ++ [0, 0, 0])) = _
        rw [vto_is_calling_round ctx v r0 r1 r2 _ h, ht]; rfl⟩

theorem relay_writes_append (a b : List Event) :
    relay_writes (a ++ b) = relay_writes a ++ relay_writes b := by
  induction a with
  | nil => rfl
  | cons e a ih =>
    cases e <;> simp [relay_writes, ih]

theorem relay_writes_loop_body (ctx : application) (v : vto) (r1 r2 : Int) :
    relay_writes (loop_body ctx v r1 r2) = [PRESS_BUTTON, RELEASE_BUTTON] := by
  unfold loop_body
  by_cases h1 : r1 ≠ 0 <;> by_cases h2 : r2 ≠ 0 <;> simp [h1, h2, relay_writes]

/-- The relay writes of a returned task: nothing, or a sequence that ends
in a press followed by a release. -/
theorem relay_writes_returned (ctx : application) (v : vto) :
    ∀ (reads : List Int) (t : List Event), vto_is_calling ctx v reads = some t →
      relay_writes t = [] ∨ ∃ pre, relay_writes t = pre ++ [PRESS_BUTTON, RELEASE_BUTTON]
  | [], t, h => by simp [vto_is_calling] at h
  | [r0], t, h => by
    by_cases h0 : r0 = 0
    · subst h0
      rw [vto_is_calling_stop] at h
      injection h with h; subst h; exact Or.inl rfl
    · rw [vto_is_calling_short ctx v r0 [] h0 (by simp)] at h; cases h
  | [r0, r1], t, h => by
    by_cases h0 : r0 = 0
    · subst h0
      rw [vto_is_calling_stop] at h
      injection h with h; subst h; exact Or.inl rfl
    · rw [vto_is_calling_short ctx v r0 [r1] h0 (by simp)] at h; cases h
  | r0 :: r1 :: r2 :: more, t, h => by
    by_cases h0 : r0 = 0
    · subst h0
      rw [vto_is_calling_stop] at h
      injection h with h; subst h; exact Or.inl rfl
    · rw [vto_is_calling_round ctx v r0 r1 r2 more h0] at h
      cases hm : vto_is_calling ctx v more with
      | none => rw [hm] at h; cases h
      | some tail =>
        rw [hm] at h
        injection h with h
        subst h
        rw [relay_writes_append, relay_writes_loop_body]
        rcases relay_writes_returned ctx v more tail hm with ht | ⟨pre, ht⟩
        · exact Or.inr ⟨[], by rw [ht]; rfl⟩
        · exact Or.inr ⟨[PRESS_BUTTON, RELEASE_BUTTON] ++ pre, by rw [ht]; simp⟩

/-- C4, amended. Relay ends de-asserted.  On every sequence of flag reads
on which the task returns and whose first read is true, the relay writes
of the task end with an assert write followed by the de-assert write: the
last write is the de-assert and it comes strictly after the last assert.
When the first read is false the task returns at once and writes nothing.
The task does return on every sequence of reads that ends in three reads
of a clear flag (one for each test of a round). -/
theorem relay_ends_released (ctx : application) (v : vto) :
    (∀ reads t, vto_is_calling ctx v reads = some t → reads.head? ≠ some 0 →
      ∃ pre, relay_writes t = pre ++ [PRESS_BUTTON, RELEASE_BUTTON]) ∧
    (∀ rest, vto_is_calling ctx v (0 :: rest) = some []) ∧
    (∀ pre, ∃ t, vto_is_calling ctx v (pre ++ [0, 0, 0]) = some t) := by
  refine ⟨?_, vto_is_calling_stop ctx v, vto_is_calling_returns ctx v⟩
  intro reads t h hhead
  match reads, h, hhead with
  | [], h, _ => simp [vto_is_calling] at h
  | [r0], h, hhead =>
    have h0 : r0 ≠ 0 := fun e => hhead (by rw [e]; rfl)
    rw [vto_is_calling_short ctx v r0 [] h0 (by simp)] at h; cases h
  | [r0, r1], h, hhead =>
    have h0 : r0 ≠ 0 := fun e => hhead (by rw [e]; rfl)
    rw [vto_is_calling_short ctx v r0 [r1] h0 (by simp)] at h; cases h
  | r0 :: r1 :: r2 :: more, h, hhead =>
    have h0 : r0 ≠ 0 := fun e => hhead (by rw [e]; rfl)
    rw [vto_is_calling_round ctx v r0 r1 r2 more h0] at h
    cases hm : vto_is_calling ctx v more with
    | none => rw [hm] at h; cases h
    | some tail =>
      rw [hm] at h
      injection h with h
      subst h
      rw [relay_writes_append, relay_writes_loop_body]
      rcases relay_writes_returned ctx v more tail hm with ht | ⟨pre, ht⟩
      · exact ⟨[], by rw [ht]; rfl⟩
      · exact ⟨[PRESS_BUTTON, RELEASE_BUTTON] ++ pre, by rw [ht]; simp⟩


theorem digitChar_isDigit (k : Nat) (hk : k < 10) :
    (Nat.digitChar k).isDigit = true ∧ (Nat.digitChar k).toNat - '0'.toNat = k := by
  interval_cases k <;> exact ⟨by decide, by decide⟩

theorem leading_decimal_digit (k : Nat) (hk : k < 10) (cs : List Char) (acc : Nat) :
    leading_decimal (Nat.digitChar k :: cs) acc = leading_decimal cs (acc * 10 + k) := by
  rw [leading_decimal, if_pos (digitChar_isDigit k hk).1, (digitChar_isDigit k hk).2]

/-- Reading back the decimal digits that `%d` prints for `n`. -/
theorem leading_decimal_toDigitsCore :
    ∀ (fuel n : Nat) (ds : List Char), n < fuel →
      leading_decimal (Nat.toDigitsCore 10 fuel n ds) 0 = leading_decimal ds n
  | 0, n, ds, h => absurd h (Nat.not_lt_zero n)
  | fuel + 1, n, ds, h => by
    rw [Nat.toDigitsCore]
    by_cases hn : n / 10 = 0
    · simp only [hn, if_true]
      rw [leading_decimal_digit _ (Nat.mod_lt _ (by decide))]
      congr 1
      omega
    · simp only [hn, if_false]
      rw [leading_decimal_toDigitsCore fuel (n / 10) _ (by omega),
        leading_decimal_digit _ (Nat.mod_lt _ (by decide))]
      congr 1
      omega

theorem leading_decimal_repr (n : Nat) : leading_decimal (toString n).toList 0 = n := by
  show leading_decimal (Nat.toDigitsCore 10 (n + 1) n []) 0 = n
  rw [leading_decimal_toDigitsCore _ _ _ (Nat.lt_succ_self n)]
  rfl

/-- The first character `%d` prints for a natural number is a digit. -/
theorem toDigitsCore_head :
    ∀ (fuel n : Nat) (ds : List Char), n < fuel →
      ∃ c cs, Nat.toDigitsCore 10 fuel n ds = c :: cs ∧ c.isDigit = true
  | 0, n, ds, h => absurd h (Nat.not_lt_zero n)
  | fuel + 1, n, ds, h => by
    rw [Nat.toDigitsCore]
    by_cases hn : n / 10 = 0
    · simp only [hn, if_true]
      exact ⟨_, _, rfl, (digitChar_isDigit _ (Nat.mod_lt _ (by decide))).1⟩
    · simp only [hn, if_false]
      exact toDigitsCore_head fuel (n / 10) _ (by omega)

theorem isDigit_not_space_sign (c : Char) (h : c.isDigit = true) :
    isspace c = false ∧ c ≠ '-' ∧ c ≠ '+' := by
  have h1 : 48 ≤ c.val.toNat ∧ c.val.toNat ≤ 57 := by
    simp only [Char.isDigit, Bool.and_eq_true, decide_eq_true_eq] at h
    exact ⟨h.1, h.2⟩
  refine ⟨?_, ?_, ?_⟩
  · simp only [isspace, Bool.or_eq_false_iff, decide_eq_false_iff_not]
    refine ⟨⟨⟨⟨⟨?_, ?_⟩, ?_⟩, ?_⟩, ?_⟩, ?_⟩ <;> (intro hc; subst hc; revert h1; decide)
  · intro hc; subst hc; revert h1; decide
  · intro hc; subst hc; revert h1; decide

/-- The call `atoi` on the text `%d` prints for a small natural number. -/
theorem atoi_repr (n : Nat) (hn : n < 2 ^ 31) : atoi (toString n) = n := by
  obtain ⟨c, cs, hcs, hc⟩ := toDigitsCore_head (n + 1) n [] (Nat.lt_succ_self n)
  have hlist : (toString n).toList = c :: cs := hcs
  obtain ⟨hsp, hminus, hplus⟩ := isDigit_not_space_sign c hc
  have hval := leading_decimal_repr n
  rw [hlist] at hval
  unfold atoi
  rw [hlist, List.dropWhile_cons_of_neg (by simp [hsp])]
  split
  · rename_i heq; injection heq with h1 _; exact absurd h1 hminus
  · rename_i heq; injection heq with h1 _; exact absurd h1 hplus
  · rw [hval]
    unfold clamp_long
    rw [if_neg (by omega), if_neg (by omega)]


theorem pin_name_toList (X : Char) (n : Nat) :
    (pin_name X n).toList = 'P' :: X :: (toString n).toList := by
  simp [pin_name, String.toList, String.singleton]

theorem string_mk_toList (s : String) : String.mk s.toList = s := rfl

/-- Every returned `set_button_value` ends with the write of `value` to the
value file of the port. -/
theorem set_button_value_last (io : gpio_calls) (v : vto) (value : String)
    (ws : List (String × String)) (h : set_button_value io v value = .ok ws) :
    ws.getLast? = some (gpio_hw v ++ "/value", value) := by
  unfold set_button_value at h
  simp only at h
  split at h
  · cases h
  · split at h
    · cases h
    · split at h
      · cases h
      · injection h with h
        rw [← h]
        simp

/-- C9. Pin name to GPIO number.  For a relay pin name `P`, an upper-case
letter `X`, then the decimal number `n` of at most five digits (so that
the name and its terminator fit the 8-byte field `relay_pin`), the port
number of `set_button_value` is `( X - 'A' ) * 32 + n`, the text `pin` is
that number in decimal, the directory is `/sys/class/gpio/gpio<number>`
and every returned call ends with the write to its `value` file.  So
`PG7` gives 199, and the defaults `PG6` and `PG11` give 198 and 203. -/
theorem pin_name_to_gpio (v : vto) (X : Char) (n : Nat) (hA : 'A' ≤ X) (_hZ : X ≤ 'Z')
    (hn : n < 100000) (hv : v.relay_pin = pin_name X n) :
    (gpio_number v = (((X.toNat - 'A'.toNat) * 32 + n : Nat) : Int) ∧
      gpio_pin v = toString ((X.toNat - 'A'.toNat) * 32 + n) ∧
      gpio_hw v = "/sys/class/gpio/gpio" ++ toString ((X.toNat - 'A'.toNat) * 32 + n) ∧
      (∀ io value ws, set_button_value io v value = .ok ws →
        ws.getLast? = some ("/sys/class/gpio/gpio" ++
          toString ((X.toNat - 'A'.toNat) * 32 + n) ++ "/value", value))) ∧
    (gpio_hw { context.main with relay_pin := "PG7" } = "/sys/class/gpio/gpio199" ∧
      gpio_hw context.main = "/sys/class/gpio/gpio198" ∧
      gpio_hw context.sub = "/sys/class/gpio/gpio203") := by
  have hX : 'A'.toNat ≤ X.toNat := hA
  have hnum : gpio_number v = (((X.toNat - 'A'.toNat) * 32 + n : Nat) : Int) := by
    unfold gpio_number char_at
    rw [hv, pin_name_toList]
    simp only [List.get?, List.drop]
    rw [string_mk_toList, atoi_repr n (by omega)]
    have h65 : 'A'.toNat = 65 := rfl
    rw [h65] at hX ⊢
    omega
  have hpin : gpio_pin v = toString ((X.toNat - 'A'.toNat) * 32 + n) := by
    unfold gpio_pin
    rw [hnum]
    rfl
  have hhw : gpio_hw v =
      "/sys/class/gpio/gpio" ++ toString ((X.toNat - 'A'.toNat) * 32 + n) := by
    unfold gpio_hw
    rw [hpin]
  refine ⟨⟨hnum, hpin, hhw, ?_⟩, by decide, by decide, by decide⟩
  intro io value ws h
  rw [← hhw]
  exact set_button_value_last io v value ws h


/-! ## Configuration -/

/-- C1 as stated fails.  Both devices are configured with the address
`192.168.1.108` and are idle; a ring datagram from that address is not
fatal and starts the task of the main device only: the sub device, idle
and with the source address as its address, keeps a clear flag and has no
task. -/
theorem ring_shared_address_sub_not_started :
    ((initial shared_address).dev .sub).call_in_progress = 0 ∧
    ((initial shared_address).dev .sub).ip = "192.168.1.108" ∧
    main_loop_step (initial shared_address) (.datagram sample_ring "192.168.1.108") =
      .ok (main_calling shared_address, [Event.create 0 .main]) ∧
    ((main_calling shared_address).dev .sub).call_in_progress = 0 ∧
    (main_calling shared_address).tasks_of .sub = [] :=
  ⟨rfl, rfl, rfl, rfl, rfl⟩

/-- C1, amended, at the sub device with two different addresses. -/
theorem ring_starts_task_witness :
    ∃ s1, main_loop_step (initial two_addresses) (.datagram sample_ring "192.168.1.110") =
        .ok (s1, [Event.create 0 .sub]) ∧
      (s1.dev .sub).call_in_progress = 1 ∧ (s1.dev .sub).thread = 0 ∧
      s1.tasks_of .sub = [(0, .sub)] :=
  ring_starts_task (initial two_addresses) .sub sample_ring "192.168.1.110"
    (by decide) (by decide) (by decide) (by decide) (by decide) (fun _ => Or.inl (by decide))

/-- C2 at the state reached by one ring of the main device: the flag of
the main device is set and thread `0` is its one task, the sub device is
idle and has none, and a second ring from the main address changes nothing
for the main device. -/
theorem one_task_per_device_witness :
    Reachable (initial two_addresses) (main_calling two_addresses) ∧
    ((∀ d, (((main_calling two_addresses).dev d).call_in_progress ≠ 0 ↔
        (main_calling two_addresses).tasks_of d =
          [(((main_calling two_addresses).dev d).thread, d)]) ∧
      ((main_calling two_addresses).tasks_of d).length ≤ 1) ∧
    (∀ d bytes ip, bytes.length = 16 → bytes.get? 0 = some 0x80 →
      (bytes.get? 1 = some 0x60 ∨ bytes.get? 1 = some 0xe0) →
      ((main_calling two_addresses).dev d).call_in_progress ≠ 0 →
      ip = ((main_calling two_addresses).dev d).ip →
      ∃ s1 ev, main_loop_step (main_calling two_addresses) (.datagram bytes ip) =
          .ok (s1, ev) ∧
        s1.dev d = (main_calling two_addresses).dev d ∧
        s1.tasks_of d = (main_calling two_addresses).tasks_of d ∧
        (∀ h, Event.create h d ∉ ev) ∧ (∀ h, Event.join h ∉ ev))) :=
  have hreach : Reachable (initial two_addresses) (main_calling two_addresses) :=
    Reachable.step (initial two_addresses) (main_calling two_addresses)
      (.datagram sample_ring "192.168.1.108") [Event.create 0 .main] Reachable.start rfl
  ⟨hreach, one_task_per_device (initial two_addresses) (main_calling two_addresses)
    rfl rfl rfl hreach⟩

/-- C3 at the state in which both devices have a call in progress: the
timeout joins thread `0` and then thread `1` and leaves both devices idle. -/
theorem timeout_stops_all_witness :
    Inv (both_calling two_addresses) ∧
    ((∃ s1, main_loop_step (both_calling two_addresses) (.failure EAGAIN) = .ok (s1,
        (if (both_calling two_addresses).context.main.call_in_progress ≠ 0 then
          [Event.join (both_calling two_addresses).context.main.thread] else []) ++
        (if (both_calling two_addresses).context.sub.call_in_progress ≠ 0 then
          [Event.join (both_calling two_addresses).context.sub.thread] else [])) ∧
      (∀ d, (s1.dev d).call_in_progress = 0 ∧ s1.tasks_of d = []) ∧
      (∀ d, ((both_calling two_addresses).dev d).call_in_progress = 0 →
        s1.dev d = (both_calling two_addresses).dev d)) ∧
    (∀ d, ((both_calling two_addresses).dev d).call_in_progress = 0 →
      vto_is_not_calling (both_calling two_addresses) d =
        .ok (both_calling two_addresses, []))) :=
  ⟨by decide, timeout_stops_all (both_calling two_addresses) EAGAIN (Or.inl rfl) (by decide)⟩

/-- C4 as stated fails.  When the first read of the flag is false, the task
returns at once: its sequence of relay writes is empty and so does not end
with a de-assert write. -/
theorem no_write_when_first_read_false :
    vto_is_calling context context.main [0] = some [] ∧
    (relay_writes []).getLast? ≠ some RELEASE_BUTTON :=
  ⟨rfl, by decide⟩

/-- C4, amended, on the reads of one full round and on a round stopped
during the press hold. -/
theorem relay_ends_released_witness :
    vto_is_calling context context.main [1, 1, 1, 0] =
      some [Event.button "PG6" "1", Event.sleep 2, Event.button "PG6" "0", Event.sleep 8] ∧
    [1, 1, 1, 0].head? ≠ some (0 : Int) ∧
    (∃ pre, relay_writes
        [Event.button "PG6" "1", Event.sleep 2, Event.button "PG6" "0", Event.sleep 8] =
      pre ++ [PRESS_BUTTON, RELEASE_BUTTON]) :=
  ⟨rfl, by decide,
    (relay_ends_released context context.main).1 [1, 1, 1, 0] _ rfl (by decide)⟩

/-- C5 as stated fails.  Both devices are configured with the address
`192.168.1.108`, the main one has a call in progress and the sub one is
idle; a ring datagram from the main address starts the task of the sub
device. -/
theorem ring_from_main_address_starts_sub :
    (main_calling shared_address).context.main.ip = "192.168.1.108" ∧
    ((main_calling shared_address).dev .sub).call_in_progress = 0 ∧
    (main_calling shared_address).tasks_of .sub = [] ∧
    main_loop_step (main_calling shared_address) (.datagram sample_ring "192.168.1.108") =
      .ok (both_calling shared_address, [Event.create 1 .sub]) ∧
    ((both_calling shared_address).dev .sub).call_in_progress = 1 ∧
    (both_calling shared_address).tasks_of .sub = [(1, .sub)] :=
  ⟨rfl, rfl, rfl, rfl, rfl, rfl⟩

/-- C5, amended, on the ring of the main device while the sub device has a
call in progress at its own address. -/
theorem ring_attribution_frame_witness :
    sample_ring.length = 16 ∧
    ("192.168.1.108" = (sub_calling two_addresses).context.main.ip →
      ¬ ((sub_calling two_addresses).context.main.call_in_progress ≠ 0 ∧
          "192.168.1.108" = (sub_calling two_addresses).context.sub.ip ∧
          (sub_calling two_addresses).context.sub.call_in_progress = 0) →
      ∃ s1 ev, main_loop_step (sub_calling two_addresses)
          (.datagram sample_ring "192.168.1.108") = .ok (s1, ev) ∧
        s1.dev .sub = (sub_calling two_addresses).dev .sub ∧
        s1.tasks_of .sub = (sub_calling two_addresses).tasks_of .sub ∧
        (∀ h, Event.create h .sub ∉ ev) ∧ (∀ h, Event.join h ∉ ev)) :=
  ⟨rfl, (ring_attribution_frame (sub_calling two_addresses) sample_ring "192.168.1.108"
    (by decide) (by decide) (by decide)).1⟩

/-- C6 on a 16-octet datagram with second octet `0x61` from the main
address, while the sub device has a call in progress. -/
theorem non_ring_datagram_discarded_witness :
    sample_other.get? 1 ≠ some 0x60 ∧ sample_other.get? 1 ≠ some 0xe0 ∧
    main_loop_step (sub_calling two_addresses) (.datagram sample_other "192.168.1.108") =
      .ok (sub_calling two_addresses, []) :=
  ⟨by decide, by decide,
    non_ring_datagram_discarded (sub_calling two_addresses) sample_other "192.168.1.108"
      (Or.inr (Or.inr ⟨by decide, by decide⟩))⟩

/-- C9 on the pin name `PG7`. -/
theorem pin_name_to_gpio_witness :
    pin_name 'G' 7 = "PG7" ∧
    gpio_hw { context.main with relay_pin := "PG7" } = "/sys/class/gpio/gpio" ++ toString 199 :=
  ⟨by decide, (pin_name_to_gpio { context.main with relay_pin := "PG7" } 'G' 7
    (by decide) (by decide) (by decide) (by decide)).1.2.2.1⟩

/-- C10 on the timeout that ends the call of the main device. -/
theorem flag_cleared_only_on_timeout_witness :
    main_loop_step (main_calling two_addresses) (.failure EAGAIN) =
      .ok ({ initial two_addresses with errno := EAGAIN, next_thread := 1 },
        [Event.join 0]) ∧
    Recv.failure EAGAIN = Recv.failure EAGAIN :=
  ⟨rfl, (flag_cleared_only_on_timeout (main_calling two_addresses)).2 (.failure EAGAIN) _ _
    .main rfl (by decide) rfl⟩

end Gong
